import Mathlib

/-!
Shallow embedding of `src/ecs.py`, an elevator control system.

The Python code mutates objects in place and signals failure with
exceptions (`IndexError` from list indexing and from `random.choice`
on an empty population).  The embedding passes state explicitly:

* `Elevator` and `ElevatorControlSystem` are the two Python classes,
  with the source's field names.
* operations that can raise return `Option` (`none` = exception raised
  before any mutation), and `step`, whose exception can escape after
  some mutation has happened, returns the error flag together with the
  state as it stands when the exception propagates.
* Python's `dict` (`all_offsets`) is an association list with
  overwrite-on-insert (`dictInsert`); its iteration order, unspecified
  in Python 2, is modelled as insertion order.
* `random.choice` over the non-busy elevators is modelled by a fixed
  selection (the first element); every property proved about that
  branch holds for any selection from the same population.
-/

structure Elevator where
  elevator_id : Nat
  current_floor : Int
  goal_floor : Int
  is_fulfilling_request : Bool
deriving DecidableEq, Repr

/-- `Elevator.__init__`: id as given, floor 1, goal sentinel -1, not busy. -/
def Elevator.init (elevator_id : Nat) : Elevator :=
  { elevator_id := elevator_id, current_floor := 1, goal_floor := -1,
    is_fulfilling_request := false }

/-- `Elevator.update`: unconditionally overwrite current and goal floor. -/
def Elevator.update (e : Elevator) (floor_number goal_floor : Int) : Elevator :=
  { e with current_floor := floor_number, goal_floor := goal_floor }

/-- `Elevator.get_direction`: `goal_floor - current_floor`. -/
def Elevator.get_direction (e : Elevator) : Int :=
  e.goal_floor - e.current_floor

/-- `Elevator.status`: the triple (id, current floor, goal floor). -/
def Elevator.status (e : Elevator) : Nat × Int × Int :=
  (e.elevator_id, e.current_floor, e.goal_floor)

structure ElevatorControlSystem where
  elevators : List Elevator
  pickup_requests : List (Int × Int)
deriving DecidableEq, Repr

namespace ElevatorControlSystem

/-- `ElevatorControlSystem.__init__`: elevators `0 .. n-1`, empty queue. -/
def init (num_elevators : Nat) : ElevatorControlSystem :=
  { elevators := (List.range num_elevators).map Elevator.init,
    pickup_requests := [] }

/-- `ElevatorControlSystem.status`. -/
def status (s : ElevatorControlSystem) : List (Nat × Int × Int) :=
  s.elevators.map Elevator.status

/-- Python list indexing `xs[i]` for a list of length `n`: a nonnegative
index must be `< n`, a negative index `i` addresses `n + i` and must
satisfy `-n ≤ i`; anything else raises `IndexError` (`none`). -/
def pyListIndex (n : Nat) (i : Int) : Option Nat :=
  if 0 ≤ i then
    if i < (n : Int) then some i.toNat else none
  else
    if 0 ≤ (n : Int) + i then some ((n : Int) + i).toNat else none

/-- `ElevatorControlSystem.update`: index into `self.elevators` with the
given id (Python semantics, including negative indices), then forward to
the elevator's `update`.  `none` = `IndexError`, raised before any
mutation. -/
def update (s : ElevatorControlSystem) (elevator_id floor_number goal_floor : Int) :
    Option ElevatorControlSystem :=
  match pyListIndex s.elevators.length elevator_id with
  | none => none
  | some i =>
    if hi : i < s.elevators.length then
      some { s with elevators :=
        s.elevators.set i ((s.elevators.get ⟨i, hi⟩).update floor_number goal_floor) }
    else none

/-- `ElevatorControlSystem.pickup`: append `[pickup_floor, direction]`. -/
def pickup (s : ElevatorControlSystem) (pickup_floor direction : Int) :
    ElevatorControlSystem :=
  { s with pickup_requests := s.pickup_requests ++ [(pickup_floor, direction)] }

/-- The candidate filter of `find_elevator_for_pickup_request`: strict
direction-sign match and not busy. -/
def isCandidate (pickup_request : Int × Int) (e : Elevator) : Bool :=
  ((decide (pickup_request.2 < 0) && decide (e.get_direction < 0)) ||
   (decide (pickup_request.2 > 0) && decide (e.get_direction > 0))) &&
  !e.is_fulfilling_request

/-- `delta = abs(pickup_floor - elevator.current_floor)`. -/
def delta (pickup_request : Int × Int) (e : Elevator) : Nat :=
  (pickup_request.1 - e.current_floor).natAbs

/-- Insertion into a Python dict modelled as an association list:
overwrite the value if the key is present, otherwise append. -/
def dictInsert (d : List (Nat × Nat)) (k : Nat) (v : Nat) : List (Nat × Nat) :=
  if d.any (fun p => p.1 == k) then
    d.map (fun p => if p.1 == k then (k, v) else p)
  else d ++ [(k, v)]

/-- The `all_offsets` dict built by `find_elevator_for_pickup_request`:
for each candidate elevator, its id mapped to its `delta`. -/
def all_offsets (s : ElevatorControlSystem) (pickup_request : Int × Int) :
    List (Nat × Nat) :=
  s.elevators.foldl
    (fun d e =>
      if isCandidate pickup_request e then
        dictInsert d e.elevator_id (delta pickup_request e)
      else d)
    []

/-- First key of the dict whose value equals `m` (the source's
`for key, value in all_offsets.iteritems(): if value == min_val: return key`). -/
def firstKeyWithVal : List (Nat × Nat) → Nat → Option Nat
  | [], _ => none
  | (k, v) :: rest, m => if v = m then some k else firstKeyWithVal rest m

/-- `ElevatorControlSystem.find_elevator_for_pickup_request`.
`none` models the `IndexError` that `random.choice` raises on an empty
population (every elevator busy). -/
def find_elevator_for_pickup_request (s : ElevatorControlSystem)
    (pickup_request : Int × Int) : Option Nat :=
  match all_offsets s pickup_request with
  | [(k, _)] => some k
  | [] =>
    match s.elevators.filter (fun e => !e.is_fulfilling_request) with
    | [] => none
    | e :: _ => some e.elevator_id
  | (k0, v0) :: rest =>
    let min_val := rest.foldl (fun m p => Nat.min m p.2) v0
    firstKeyWithVal ((k0, v0) :: rest) min_val

/-- One iteration of `step`'s assignment loop: find an elevator for the
request, set its goal to the pickup floor (current floor unchanged) and
mark it busy.  `none` = the `IndexError` escaping from the failed
lookup, raised before this iteration mutates anything. -/
def assignOne (s : ElevatorControlSystem) (pickup_request : Int × Int) :
    Option ElevatorControlSystem :=
  match s.find_elevator_for_pickup_request pickup_request with
  | none => none
  | some i =>
    if hi : i < s.elevators.length then
      let e := s.elevators.get ⟨i, hi⟩
      let e' := { (e.update e.current_floor pickup_request.1) with
                    is_fulfilling_request := true }
      some { s with elevators := s.elevators.set i e' }
    else none

/-- `step`'s assignment phase: process the requests in queue order,
stopping at the first exception; the state carried out is the state at
the moment the exception propagates (mutations already made persist). -/
def assignRequests : ElevatorControlSystem → List (Int × Int) →
    Bool × ElevatorControlSystem
  | s, [] => (false, s)
  | s, req :: rest =>
    match assignOne s req with
    | none => (true, s)
    | some s' => assignRequests s' rest

/-- The body of `step`'s motion loop for one elevator: clear busy on
arrival, then, if still busy, move one floor (down when
`get_direction() < 0`, else up). -/
def motionOne (e : Elevator) : Elevator :=
  let e1 := if e.current_floor = e.goal_floor then
    { e with is_fulfilling_request := false } else e
  if e1.is_fulfilling_request then
    if e1.get_direction < 0 then { e1 with current_floor := e1.current_floor - 1 }
    else { e1 with current_floor := e1.current_floor + 1 }
  else e1

/-- `ElevatorControlSystem.step`: assignment phase over the pending
queue, then (only when no exception was raised) clear the queue and run
the motion phase over every elevator.  The first component is `true`
when an exception escaped; the second is the state the caller observes
afterwards. -/
def step (s : ElevatorControlSystem) : Bool × ElevatorControlSystem :=
  match assignRequests s s.pickup_requests with
  | (true, s') => (true, s')
  | (false, s') =>
    (false, { elevators := s'.elevators.map motionOne, pickup_requests := [] })

/-- Iterated `step`, keeping the state even when a step raises (the
caller's object retains its state across an exception). -/
def stepIter (s : ElevatorControlSystem) : Nat → ElevatorControlSystem
  | 0 => s
  | n + 1 => (step (stepIter s n)).2

end ElevatorControlSystem

/-! ### Helper lemmas -/

theorem ElevatorControlSystem.pyListIndex_none_iff (n : Nat) (i : Int) :
    ElevatorControlSystem.pyListIndex n i = none ↔
      (i < -(n : Int) ∨ (n : Int) ≤ i) := by
  unfold ElevatorControlSystem.pyListIndex
  split
  · split
    · simp only [reduceCtorEq, false_iff]
      omega
    · simp only [true_iff]
      omega
  · split
    · simp only [reduceCtorEq, false_iff]
      omega
    · simp only [true_iff]
      omega

theorem ElevatorControlSystem.pyListIndex_some_lt (n : Nat) (i : Int) (j : Nat)
    (h : ElevatorControlSystem.pyListIndex n i = some j) : j < n := by
  unfold ElevatorControlSystem.pyListIndex at h
  split at h
  · split at h
    · simp only [Option.some.injEq] at h
      omega
    · exact absurd h (by simp)
  · split at h
    · simp only [Option.some.injEq] at h
      omega
    · exact absurd h (by simp)

/-! ### C10, and counterexamples for C4, C5, C6, C7, C8, C9 -/

/-- C10: after a normally returning step(), an elevator can be observed
with busy true while current_floor = goal_floor.  Concretely: one fresh
elevator, pickup(2, 1), step(): the step succeeds and leaves elevator 0
busy at floor 2 with goal 2. -/
theorem C10_busy_at_goal_after_step :
    (ElevatorControlSystem.step
      (ElevatorControlSystem.pickup (ElevatorControlSystem.init 1) 2 1)).1 = false ∧
    ((ElevatorControlSystem.step
      (ElevatorControlSystem.pickup (ElevatorControlSystem.init 1) 2 1)).2.elevators.any
        (fun e => e.is_fulfilling_request && (e.current_floor == e.goal_floor))) = true := by
  decide

/-- C4 counterexample: a freshly created elevator (floor 1, goal -1, not
busy) has get_direction() = -2 < 0, so for the downward request (1, -1)
it IS in the strict sign-matching candidate set (all_offsets is
nonempty) and find_elevator_for_pickup_request selects it through the
candidate branch, not the random fallback — refuting the claim that a
fresh elevator is never a sign-matching candidate. -/
theorem C4_counterexample :
    ElevatorControlSystem.isCandidate (1, -1) (Elevator.init 0) = true ∧
    ElevatorControlSystem.all_offsets (ElevatorControlSystem.init 1) (1, -1) = [(0, 0)] ∧
    (ElevatorControlSystem.init 1).find_elevator_for_pickup_request (1, -1) = some 0 := by
  decide

/-- C5 counterexample: elevator_id = -1 lies outside [0, 1), yet on a
one-elevator system update(-1, 7, 9) does not fail: Python's negative
indexing addresses the last elevator, which is silently updated to
floor 7, goal 9 — refuting "fails if and only if outside [0, n)". -/
theorem C5_counterexample :
    ¬ (0 ≤ (-1 : Int)) ∧
    (ElevatorControlSystem.init 1).update (-1) 7 9 =
      some ⟨[⟨0, 7, 9, false⟩], []⟩ := by
  decide

/-- C6 counterexample: from a fresh one-elevator system, queue
pickup(5, 1) and pickup(7, 1) and call step().  The first request is
assigned (elevator 0 becomes busy with goal 5), the second finds every
elevator busy and raises; step() fails, yet the observable state
differs from the pre-call state — the partial assignment and the
uncleared queue are both visible, refuting atomicity. -/
theorem C6_counterexample :
    (ElevatorControlSystem.step
      (ElevatorControlSystem.pickup
        (ElevatorControlSystem.pickup (ElevatorControlSystem.init 1) 5 1) 7 1)).1 = true ∧
    (ElevatorControlSystem.step
      (ElevatorControlSystem.pickup
        (ElevatorControlSystem.pickup (ElevatorControlSystem.init 1) 5 1) 7 1)).2 ≠
      ElevatorControlSystem.pickup
        (ElevatorControlSystem.pickup (ElevatorControlSystem.init 1) 5 1) 7 1 := by
  decide

/-- C7 counterexample: reach the state with one busy elevator
(floor 2, goal 5) by pickup(5, 1); step(); then pickup(7, 1) followed
by step() raises: the queue still holds the request and no elevator's
goal becomes 7 — refuting the claim for this pickup/step pair. -/
theorem C7_counterexample :
    ((7 : Int) ≠ 0) ∧
    (ElevatorControlSystem.step
      (ElevatorControlSystem.pickup
        ((ElevatorControlSystem.step
          (ElevatorControlSystem.pickup (ElevatorControlSystem.init 1) 5 1)).2) 7 1)).2.pickup_requests ≠ [] ∧
    ((ElevatorControlSystem.step
      (ElevatorControlSystem.pickup
        ((ElevatorControlSystem.step
          (ElevatorControlSystem.pickup (ElevatorControlSystem.init 1) 5 1)).2) 7 1)).2.elevators.all
        (fun e => !(e.goal_floor == (7 : Int)))) = true := by
  decide

/-- C8 counterexample: a pickup request at floor 1 handled by the fresh
elevator standing at floor 1: the assignment sets goal_floor := 1 =
current_floor and marks the elevator busy, so busy is set to true while
the elevator already stands at its goal floor — refuting the claim. -/
theorem C8_counterexample :
    ElevatorControlSystem.assignOne (ElevatorControlSystem.init 1) (1, 1) =
      some ⟨[⟨0, 1, 1, true⟩], []⟩ ∧
    ((ElevatorControlSystem.assignOne (ElevatorControlSystem.init 1) (1, 1)).map
      (fun t => t.elevators.any
        (fun e => e.is_fulfilling_request && (e.current_floor == e.goal_floor)))) =
      some true := by
  decide

/-- C9 counterexample: in the (reachable) state with elevator 0 busy at
floor 2 with goal 5 and a pending request (7, 1), every step() raises in
the assignment phase before the motion phase runs, so |5 - 2| = 3
further step() calls leave the elevator at floor 2, never at its goal —
refuting "from any state". -/
theorem C9_counterexample :
    ElevatorControlSystem.stepIter ⟨[⟨0, 2, 5, true⟩], [(7, 1)]⟩ 3 =
      ⟨[⟨0, 2, 5, true⟩], [(7, 1)]⟩ ∧
    ((2 : Int) ≠ 5) ∧ ((5 : Int) - 2).natAbs = 3 := by
  decide

/-! ### C3: the motion phase -/

/-- C3: in step()'s motion phase (body `motionOne`), an elevator
standing at its goal has busy cleared and does not move; otherwise a
busy elevator moves exactly one floor toward its goal (down when
direction() < 0, up otherwise, shrinking the distance to the goal by
one); a non-busy elevator never moves. -/
theorem C3_motion_phase (e : Elevator) :
    (e.current_floor = e.goal_floor →
      ElevatorControlSystem.motionOne e = { e with is_fulfilling_request := false }) ∧
    (e.current_floor ≠ e.goal_floor → e.is_fulfilling_request = true →
      ((e.get_direction < 0 →
          (ElevatorControlSystem.motionOne e).current_floor = e.current_floor - 1) ∧
       (¬ e.get_direction < 0 →
          (ElevatorControlSystem.motionOne e).current_floor = e.current_floor + 1) ∧
       ((ElevatorControlSystem.motionOne e).goal_floor
          - (ElevatorControlSystem.motionOne e).current_floor).natAbs + 1
          = (e.goal_floor - e.current_floor).natAbs)) ∧
    (e.is_fulfilling_request = false →
      (ElevatorControlSystem.motionOne e).current_floor = e.current_floor) := by
  unfold ElevatorControlSystem.motionOne
  unfold Elevator.get_direction
  refine ⟨?_, ?_, ?_⟩
  · intro h
    simp [h]
  · intro h hb
    simp only [if_neg h, hb, if_pos]
    constructor
    · intro hd
      simp only [if_pos hd]
    constructor
    · intro hd
      simp only [if_neg hd]
    · by_cases hd : e.goal_floor - e.current_floor < 0
      · simp only [if_pos hd]
        omega
      · simp only [if_neg hd]
        omega
  · intro hb
    by_cases h : e.current_floor = e.goal_floor
    · simp [h, hb]
    · simp [h, hb]

/-- C3 witness: a busy elevator at floor 1 with goal 5 moves up to
floor 2 in the motion phase. -/
theorem C3_motion_phase_witness :
    (ElevatorControlSystem.motionOne ⟨0, 1, 5, true⟩).current_floor = (1 : Int) + 1 :=
  ((C3_motion_phase ⟨0, 1, 5, true⟩).2.1 (by decide) rfl).2.1 (by decide)

/-! ### C4 (amended): direction of a fresh elevator -/

/-- C4 amended: a freshly created elevator has get_direction() = -2
(not 0): it is never a strict sign-matching candidate for an upward
request, but it IS a candidate for every downward request, so it can be
selected through the candidate branch, not only the random fallback. -/
theorem C4_fresh_elevator_direction (i : Nat) (pickup_request : Int × Int) :
    (Elevator.init i).get_direction = -2 ∧
    (pickup_request.2 > 0 →
      ElevatorControlSystem.isCandidate pickup_request (Elevator.init i) = false) ∧
    (pickup_request.2 < 0 →
      ElevatorControlSystem.isCandidate pickup_request (Elevator.init i) = true) := by
  refine ⟨rfl, ?_, ?_⟩
  · intro h
    simp only [ElevatorControlSystem.isCandidate, Elevator.init, Elevator.get_direction]
    simp only [Bool.and_eq_false_iff, Bool.or_eq_false_iff]
    norm_num
    omega
  · intro h
    simp only [ElevatorControlSystem.isCandidate, Elevator.init, Elevator.get_direction]
    simp only [Bool.and_eq_true, Bool.or_eq_true]
    norm_num
    omega

/-- C4 witness: for the downward request (3, -1) the fresh elevator 0
is a strict sign-matching candidate. -/
theorem C4_fresh_elevator_direction_witness :
    ElevatorControlSystem.isCandidate (3, -1) (Elevator.init 0) = true :=
  (C4_fresh_elevator_direction 0 (3, -1)).2.2 (by decide)

/-! ### C5 (amended): update and Python index semantics -/

/-- C5 amended: update(elevator_id, floor, goal) fails (IndexError,
raised before any mutation, so the state is unchanged) if and only if
elevator_id lies outside [-n, n) where n is the number of elevators;
an id in [-n, 0) silently addresses elevator n + id. -/
theorem C5_update_failure_range (s : ElevatorControlSystem)
    (elevator_id floor_number goal_floor : Int) :
    s.update elevator_id floor_number goal_floor = none ↔
      (elevator_id < -(s.elevators.length : Int) ∨
       (s.elevators.length : Int) ≤ elevator_id) := by
  unfold ElevatorControlSystem.update
  rcases h : ElevatorControlSystem.pyListIndex s.elevators.length elevator_id with _ | i
  · simpa using (ElevatorControlSystem.pyListIndex_none_iff s.elevators.length elevator_id).1 h
  · have hi := ElevatorControlSystem.pyListIndex_some_lt s.elevators.length elevator_id i h
    simp only [dif_pos hi, reduceCtorEq, false_iff]
    intro hcon
    have := (ElevatorControlSystem.pyListIndex_none_iff s.elevators.length elevator_id).2 hcon
    rw [h] at this
    exact absurd this (by simp)

/-! ### Characterisation of the all_offsets dict -/

theorem ElevatorControlSystem.dictInsert_fresh (d : List (Nat × Nat)) (k v : Nat)
    (h : ∀ p ∈ d, p.1 ≠ k) :
    ElevatorControlSystem.dictInsert d k v = d ++ [(k, v)] := by
  unfold ElevatorControlSystem.dictInsert
  rw [if_neg]
  intro hany
  rcases List.any_eq_true.1 hany with ⟨p, hp, hpk⟩
  exact h p hp (by simpa using hpk)

theorem ElevatorControlSystem.all_offsets_fold (pickup_request : Int × Int)
    (l : List Elevator) :
    ∀ d : List (Nat × Nat),
      (∀ e ∈ l, ∀ p ∈ d, p.1 ≠ e.elevator_id) →
      l.Pairwise (fun a b => a.elevator_id ≠ b.elevator_id) →
      List.foldl
        (fun d e =>
          if ElevatorControlSystem.isCandidate pickup_request e then
            ElevatorControlSystem.dictInsert d e.elevator_id
              (ElevatorControlSystem.delta pickup_request e)
          else d) d l
        = d ++ (l.filter (ElevatorControlSystem.isCandidate pickup_request)).map
            (fun e => (e.elevator_id, ElevatorControlSystem.delta pickup_request e)) := by
  induction l with
  | nil =>
    intro d _ _
    simp
  | cons e rest ih =>
    intro d hfresh hpw
    rcases List.pairwise_cons.1 hpw with ⟨hhead, htail⟩
    rw [List.foldl_cons]
    by_cases hc : ElevatorControlSystem.isCandidate pickup_request e = true
    · rw [if_pos hc,
        ElevatorControlSystem.dictInsert_fresh _ _ _
          (fun p hp => hfresh e (List.mem_cons_self _ _) p hp)]
      rw [ih _ ?_ htail]
      · rw [List.filter_cons_of_pos hc]
        simp
      · intro e' he' p hp
        rcases List.mem_append.1 hp with hp' | hp'
        · exact hfresh e' (List.mem_cons_of_mem _ he') p hp'
        · have hpe : p = (e.elevator_id, ElevatorControlSystem.delta pickup_request e) := by
            simpa using hp'
          rw [hpe]
          exact hhead e' he'
    · rw [if_neg hc, List.filter_cons_of_neg (by simpa using hc)]
      exact ih d (fun e' he' => hfresh e' (List.mem_cons_of_mem _ he')) htail

theorem ElevatorControlSystem.all_offsets_eq (s : ElevatorControlSystem)
    (pickup_request : Int × Int)
    (hids : s.elevators.Pairwise (fun a b => a.elevator_id ≠ b.elevator_id)) :
    ElevatorControlSystem.all_offsets s pickup_request
      = (s.elevators.filter (ElevatorControlSystem.isCandidate pickup_request)).map
          (fun e => (e.elevator_id, ElevatorControlSystem.delta pickup_request e)) := by
  unfold ElevatorControlSystem.all_offsets
  simpa using
    ElevatorControlSystem.all_offsets_fold pickup_request s.elevators [] (by simp) hids

theorem ElevatorControlSystem.all_offsets_nil (s : ElevatorControlSystem)
    (pickup_request : Int × Int)
    (hc : ∀ e ∈ s.elevators, ElevatorControlSystem.isCandidate pickup_request e = false) :
    ElevatorControlSystem.all_offsets s pickup_request = [] := by
  unfold ElevatorControlSystem.all_offsets
  have aux : ∀ (l : List Elevator) (d : List (Nat × Nat)),
      (∀ e ∈ l, ElevatorControlSystem.isCandidate pickup_request e = false) →
      List.foldl
        (fun d e =>
          if ElevatorControlSystem.isCandidate pickup_request e then
            ElevatorControlSystem.dictInsert d e.elevator_id
              (ElevatorControlSystem.delta pickup_request e)
          else d) d l = d := by
    intro l
    induction l with
    | nil => intro d _; rfl
    | cons e rest ih =>
      intro d h
      rw [List.foldl_cons, if_neg (by simp [h e (List.mem_cons_self _ _)]),
        ih d (fun e' he' => h e' (List.mem_cons_of_mem _ he'))]
  exact aux s.elevators [] hc

/-! ### Reduction lemmas for the branches of the assignment algorithm -/

theorem ElevatorControlSystem.find_eq_of_one (s : ElevatorControlSystem)
    (pickup_request : Int × Int) (k v : Nat)
    (h : ElevatorControlSystem.all_offsets s pickup_request = [(k, v)]) :
    s.find_elevator_for_pickup_request pickup_request = some k := by
  unfold ElevatorControlSystem.find_elevator_for_pickup_request
  rw [h]

theorem ElevatorControlSystem.find_eq_of_two (s : ElevatorControlSystem)
    (pickup_request : Int × Int) (k0 v0 : Nat) (q : Nat × Nat) (rest : List (Nat × Nat))
    (h : ElevatorControlSystem.all_offsets s pickup_request = (k0, v0) :: q :: rest) :
    s.find_elevator_for_pickup_request pickup_request =
      ElevatorControlSystem.firstKeyWithVal ((k0, v0) :: q :: rest)
        ((q :: rest).foldl (fun m p => Nat.min m p.2) v0) := by
  unfold ElevatorControlSystem.find_elevator_for_pickup_request
  rw [h]

theorem ElevatorControlSystem.find_nil_all_busy (s : ElevatorControlSystem)
    (pickup_request : Int × Int)
    (h0 : ElevatorControlSystem.all_offsets s pickup_request = [])
    (hf : s.elevators.filter (fun e => !e.is_fulfilling_request) = []) :
    s.find_elevator_for_pickup_request pickup_request = none := by
  unfold ElevatorControlSystem.find_elevator_for_pickup_request
  rw [h0, hf]

theorem ElevatorControlSystem.find_nil_fallback (s : ElevatorControlSystem)
    (pickup_request : Int × Int) (e0 : Elevator) (rest : List Elevator)
    (h0 : ElevatorControlSystem.all_offsets s pickup_request = [])
    (hf : s.elevators.filter (fun e => !e.is_fulfilling_request) = e0 :: rest) :
    s.find_elevator_for_pickup_request pickup_request = some e0.elevator_id := by
  unfold ElevatorControlSystem.find_elevator_for_pickup_request
  rw [h0, hf]

/-! ### Minimum of the dict values -/

theorem ElevatorControlSystem.foldl_min_le (rest : List (Nat × Nat)) :
    ∀ v0 : Nat,
      rest.foldl (fun m p => Nat.min m p.2) v0 ≤ v0 ∧
      ∀ p ∈ rest, rest.foldl (fun m p => Nat.min m p.2) v0 ≤ p.2 := by
  induction rest with
  | nil =>
    intro v0
    simp
  | cons q rest ih =>
    intro v0
    rw [List.foldl_cons]
    rcases ih (Nat.min v0 q.2) with ⟨h1, h2⟩
    refine ⟨le_trans h1 (Nat.min_le_left _ _), ?_⟩
    intro p hp
    rcases List.mem_cons.1 hp with rfl | hp'
    · exact le_trans h1 (Nat.min_le_right _ _)
    · exact h2 p hp'

theorem ElevatorControlSystem.foldl_min_attained (rest : List (Nat × Nat)) :
    ∀ v0 : Nat,
      rest.foldl (fun m p => Nat.min m p.2) v0 = v0 ∨
      ∃ p ∈ rest, rest.foldl (fun m p => Nat.min m p.2) v0 = p.2 := by
  induction rest with
  | nil =>
    intro v0
    left
    rfl
  | cons q rest ih =>
    intro v0
    rw [List.foldl_cons]
    rcases ih (Nat.min v0 q.2) with h | ⟨p, hp, h⟩
    · rcases le_total v0 q.2 with hle | hle
      · left
        rw [h]
        exact Nat.le_antisymm (Nat.min_le_left _ _) (Nat.le_min.2 ⟨Nat.le_refl _, hle⟩)
      · right
        refine ⟨q, List.mem_cons_self _ _, ?_⟩
        rw [h]
        exact Nat.le_antisymm (Nat.min_le_right _ _) (Nat.le_min.2 ⟨hle, Nat.le_refl _⟩)
    · right
      exact ⟨p, List.mem_cons_of_mem _ hp, h⟩

theorem ElevatorControlSystem.firstKeyWithVal_spec (l : List (Nat × Nat)) (m : Nat)
    (h : ∃ p ∈ l, p.2 = m) :
    ∃ k, ElevatorControlSystem.firstKeyWithVal l m = some k ∧ (k, m) ∈ l := by
  induction l with
  | nil => simp at h
  | cons q rest ih =>
    obtain ⟨k, v⟩ := q
    rw [ElevatorControlSystem.firstKeyWithVal]
    by_cases hv : v = m
    · subst hv
      exact ⟨k, by rw [if_pos rfl], by simp⟩
    · rw [if_neg hv]
      rcases h with ⟨p, hp, hpm⟩
      rcases List.mem_cons.1 hp with rfl | hp'
      · exact absurd hpm hv
      · rcases ih ⟨p, hp', hpm⟩ with ⟨k', h1, h2⟩
        exact ⟨k', h1, List.mem_cons_of_mem _ h2⟩

/-! ### C1 and C2: the assignment algorithm -/

/-- C1: when at least one elevator is a strict sign-matching, non-busy
candidate for the request (with elevator ids pairwise distinct, as
construction guarantees), find_elevator_for_pickup_request returns the
id of a candidate whose delta = |floor - current_floor| is minimal
among all candidates.  The Python dict's unspecified iteration order
only affects which minimal candidate is returned, not minimality. -/
theorem C1_find_minimal_candidate (s : ElevatorControlSystem)
    (pickup_request : Int × Int)
    (hids : s.elevators.Pairwise (fun a b => a.elevator_id ≠ b.elevator_id))
    (hex : ∃ e ∈ s.elevators, ElevatorControlSystem.isCandidate pickup_request e = true) :
    ∃ i, s.find_elevator_for_pickup_request pickup_request = some i ∧
      ∃ e ∈ s.elevators, e.elevator_id = i ∧
        ElevatorControlSystem.isCandidate pickup_request e = true ∧
        ∀ e' ∈ s.elevators, ElevatorControlSystem.isCandidate pickup_request e' = true →
          ElevatorControlSystem.delta pickup_request e
            ≤ ElevatorControlSystem.delta pickup_request e' := by
  have hall := ElevatorControlSystem.all_offsets_eq s pickup_request hids
  have hmemcand : ∀ e',
      e' ∈ s.elevators.filter (ElevatorControlSystem.isCandidate pickup_request) ↔
      (e' ∈ s.elevators ∧ ElevatorControlSystem.isCandidate pickup_request e' = true) :=
    fun e' => List.mem_filter
  rcases hlist : s.elevators.filter (ElevatorControlSystem.isCandidate pickup_request)
    with _ | ⟨e1, rest1⟩
  · rcases hex with ⟨e, he, hc⟩
    have hmem : e ∈ s.elevators.filter (ElevatorControlSystem.isCandidate pickup_request) :=
      (hmemcand e).2 ⟨he, hc⟩
    rw [hlist] at hmem
    simp at hmem
  · rw [hlist] at hall
    have he1 : e1 ∈ s.elevators ∧
        ElevatorControlSystem.isCandidate pickup_request e1 = true := by
      apply (hmemcand e1).1
      rw [hlist]
      exact List.mem_cons_self _ _
    rcases rest1 with _ | ⟨e2, rest2⟩
    · simp only [List.map_cons, List.map_nil] at hall
      refine ⟨e1.elevator_id,
        ElevatorControlSystem.find_eq_of_one s pickup_request _ _ hall,
        e1, he1.1, rfl, he1.2, ?_⟩
      intro e' he' hc'
      have hmem : e' ∈ s.elevators.filter (ElevatorControlSystem.isCandidate pickup_request) :=
        (hmemcand e').2 ⟨he', hc'⟩
      rw [hlist] at hmem
      have : e' = e1 := by simpa using hmem
      rw [this]
    · simp only [List.map_cons] at hall
      have hfind := ElevatorControlSystem.find_eq_of_two s pickup_request _ _ _ _ hall
      have hvals := ElevatorControlSystem.foldl_min_le
        ((e2.elevator_id, ElevatorControlSystem.delta pickup_request e2)
          :: rest2.map (fun e => (e.elevator_id, ElevatorControlSystem.delta pickup_request e)))
        (ElevatorControlSystem.delta pickup_request e1)
      have hatt := ElevatorControlSystem.foldl_min_attained
        ((e2.elevator_id, ElevatorControlSystem.delta pickup_request e2)
          :: rest2.map (fun e => (e.elevator_id, ElevatorControlSystem.delta pickup_request e)))
        (ElevatorControlSystem.delta pickup_request e1)
      set tl := (e2.elevator_id, ElevatorControlSystem.delta pickup_request e2)
        :: rest2.map (fun e => (e.elevator_id, ElevatorControlSystem.delta pickup_request e))
        with htl
      set mv := tl.foldl (fun m p => Nat.min m p.2)
        (ElevatorControlSystem.delta pickup_request e1) with hmv
      have hsome : ∃ p ∈ (e1.elevator_id, ElevatorControlSystem.delta pickup_request e1) :: tl,
          p.2 = mv := by
        rcases hatt with h | ⟨p, hp, h⟩
        · exact ⟨(e1.elevator_id, ElevatorControlSystem.delta pickup_request e1),
            List.mem_cons_self _ _, h.symm⟩
        · exact ⟨p, List.mem_cons_of_mem _ hp, h.symm⟩
      rcases ElevatorControlSystem.firstKeyWithVal_spec _ mv hsome with ⟨k, hk1, hk2⟩
      have hk2' : (k, mv) ∈ (s.elevators.filter
          (ElevatorControlSystem.isCandidate pickup_request)).map
            (fun e => (e.elevator_id, ElevatorControlSystem.delta pickup_request e)) := by
        rw [hlist]
        simp only [List.map_cons]
        rw [← htl]
        exact hk2
      rcases List.mem_map.1 hk2' with ⟨e, hecand, heq⟩
      rcases (hmemcand e).1 hecand with ⟨hemem, hecand'⟩
      have heid : e.elevator_id = k := congrArg Prod.fst heq
      have hedelta : ElevatorControlSystem.delta pickup_request e = mv :=
        congrArg Prod.snd heq
      refine ⟨k, by rw [hfind]; exact hk1, e, hemem, heid, hecand', ?_⟩
      intro e' he' hc'
      have hmem : e' ∈ s.elevators.filter (ElevatorControlSystem.isCandidate pickup_request) :=
        (hmemcand e').2 ⟨he', hc'⟩
      rw [hlist] at hmem
      rw [hedelta]
      rcases List.mem_cons.1 hmem with rfl | hmem'
      · exact le_trans hvals.1 (le_refl _)
      · have : (e'.elevator_id, ElevatorControlSystem.delta pickup_request e') ∈ tl := by
          rw [htl]
          rcases List.mem_cons.1 hmem' with rfl | hmem''
          · exact List.mem_cons_self _ _
          · exact List.mem_cons_of_mem _ (List.mem_map.2 ⟨e', hmem'', rfl⟩)
        exact hvals.2 _ this

/-- C1 witness: on a fresh one-elevator system the downward request
(1, -1) has elevator 0 as a candidate, and the algorithm returns a
minimal-delta candidate's id. -/
theorem C1_find_minimal_candidate_witness :
    (∃ e ∈ (ElevatorControlSystem.init 1).elevators,
        ElevatorControlSystem.isCandidate (1, -1) e = true) ∧
    (∃ i, (ElevatorControlSystem.init 1).find_elevator_for_pickup_request (1, -1) = some i ∧
      ∃ e ∈ (ElevatorControlSystem.init 1).elevators, e.elevator_id = i ∧
        ElevatorControlSystem.isCandidate (1, -1) e = true ∧
        ∀ e' ∈ (ElevatorControlSystem.init 1).elevators,
          ElevatorControlSystem.isCandidate (1, -1) e' = true →
          ElevatorControlSystem.delta (1, -1) e ≤ ElevatorControlSystem.delta (1, -1) e') :=
  ⟨⟨Elevator.init 0, by decide, by decide⟩,
   C1_find_minimal_candidate (ElevatorControlSystem.init 1) (1, -1)
     (by
       have h : (ElevatorControlSystem.init 1).elevators = [Elevator.init 0] := by decide
       rw [h]
       exact List.pairwise_singleton _ _)
     ⟨Elevator.init 0, by decide, by decide⟩⟩

/-- C2: when no elevator passes the strict sign-matching candidate
filter, the fallback returns the id of one of the non-busy elevators
(direction ignored) when one exists, and fails (the IndexError of
random.choice on an empty population) when every elevator is busy. -/
theorem C2_fallback_nonbusy (s : ElevatorControlSystem) (pickup_request : Int × Int)
    (hc : ∀ e ∈ s.elevators, ElevatorControlSystem.isCandidate pickup_request e = false) :
    ((∃ e ∈ s.elevators, e.is_fulfilling_request = false) →
      ∃ i, s.find_elevator_for_pickup_request pickup_request = some i ∧
        ∃ e ∈ s.elevators, e.elevator_id = i ∧ e.is_fulfilling_request = false) ∧
    ((∀ e ∈ s.elevators, e.is_fulfilling_request = true) →
      s.find_elevator_for_pickup_request pickup_request = none) := by
  have h0 := ElevatorControlSystem.all_offsets_nil s pickup_request hc
  constructor
  · rintro ⟨e, he, hb⟩
    rcases hflt : s.elevators.filter (fun e => !e.is_fulfilling_request)
      with _ | ⟨e0, rest⟩
    · exfalso
      have hmem : e ∈ s.elevators.filter (fun e => !e.is_fulfilling_request) :=
        List.mem_filter.2 ⟨he, by simp [hb]⟩
      rw [hflt] at hmem
      simp at hmem
    · have hmem0 : e0 ∈ s.elevators.filter (fun e => !e.is_fulfilling_request) := by
        rw [hflt]
        exact List.mem_cons_self _ _
      have hmem := List.mem_filter.1 hmem0
      exact ⟨e0.elevator_id,
        ElevatorControlSystem.find_nil_fallback s pickup_request e0 rest h0 hflt,
        e0, hmem.1, rfl, by simpa using hmem.2⟩
  · intro hb
    rcases hflt : s.elevators.filter (fun e => !e.is_fulfilling_request)
      with _ | ⟨e0, rest⟩
    · exact ElevatorControlSystem.find_nil_all_busy s pickup_request h0 hflt
    · exfalso
      have hmem0 : e0 ∈ s.elevators.filter (fun e => !e.is_fulfilling_request) := by
        rw [hflt]
        exact List.mem_cons_self _ _
      have hmem := List.mem_filter.1 hmem0
      have h2 := hmem.2
      rw [hb e0 hmem.1] at h2
      simp at h2

/-- C2 witness: on a fresh one-elevator system the upward request
(5, 1) has no sign-matching candidate (the fresh direction is -2), and
the fallback returns the non-busy elevator 0. -/
theorem C2_fallback_nonbusy_witness :
    (∀ e ∈ (ElevatorControlSystem.init 1).elevators,
      ElevatorControlSystem.isCandidate (5, 1) e = false) ∧
    (∃ i, (ElevatorControlSystem.init 1).find_elevator_for_pickup_request (5, 1) = some i ∧
      ∃ e ∈ (ElevatorControlSystem.init 1).elevators, e.elevator_id = i ∧
        e.is_fulfilling_request = false) :=
  ⟨by decide,
   (C2_fallback_nonbusy (ElevatorControlSystem.init 1) (5, 1) (by decide)).1
     ⟨Elevator.init 0, by decide, by decide⟩⟩

/-! ### The assignment phase: shape of success and failure -/

theorem ElevatorControlSystem.assignOne_some (s : ElevatorControlSystem)
    (pickup_request : Int × Int) (s' : ElevatorControlSystem)
    (h : ElevatorControlSystem.assignOne s pickup_request = some s') :
    ∃ i, ∃ hi : i < s.elevators.length,
      s' = { s with elevators := (s.elevators.set i
        ⟨(s.elevators.get ⟨i, hi⟩).elevator_id,
         (s.elevators.get ⟨i, hi⟩).current_floor,
         pickup_request.1, true⟩) } := by
  unfold ElevatorControlSystem.assignOne at h
  split at h
  · exact absurd h (by simp)
  · rename_i i hfind
    split at h
    · rename_i hi
      exact ⟨i, hi, (Option.some.inj h).symm⟩
    · exact absurd h (by simp)

theorem ElevatorControlSystem.assignOne_queue (s : ElevatorControlSystem)
    (pickup_request : Int × Int) (s' : ElevatorControlSystem)
    (h : ElevatorControlSystem.assignOne s pickup_request = some s') :
    s'.pickup_requests = s.pickup_requests := by
  rcases ElevatorControlSystem.assignOne_some s pickup_request s' h with ⟨i, hi, rfl⟩
  rfl

theorem ElevatorControlSystem.assignOne_goal (s : ElevatorControlSystem)
    (pickup_request : Int × Int) (s' : ElevatorControlSystem)
    (h : ElevatorControlSystem.assignOne s pickup_request = some s') :
    ∃ e ∈ s'.elevators, e.goal_floor = pickup_request.1 ∧
      e.is_fulfilling_request = true := by
  rcases ElevatorControlSystem.assignOne_some s pickup_request s' h with ⟨i, hi, rfl⟩
  have hlen : i < (s.elevators.set i
      (⟨(s.elevators.get ⟨i, hi⟩).elevator_id,
        (s.elevators.get ⟨i, hi⟩).current_floor,
        pickup_request.1, true⟩ : Elevator)).length := by
    rw [List.length_set]
    exact hi
  exact ⟨⟨(s.elevators.get ⟨i, hi⟩).elevator_id,
    (s.elevators.get ⟨i, hi⟩).current_floor, pickup_request.1, true⟩,
    List.mem_iff_get.2 ⟨⟨i, hlen⟩, List.get_set_eq hlen⟩, rfl, rfl⟩

theorem ElevatorControlSystem.assignRequests_queue (l : List (Int × Int)) :
    ∀ s : ElevatorControlSystem,
      (ElevatorControlSystem.assignRequests s l).2.pickup_requests
        = s.pickup_requests := by
  induction l with
  | nil =>
    intro s
    rfl
  | cons r rest ih =>
    intro s
    rw [ElevatorControlSystem.assignRequests]
    rcases ha : ElevatorControlSystem.assignOne s r with _ | s1
    · rfl
    · rw [ih s1, ElevatorControlSystem.assignOne_queue s r s1 ha]

theorem ElevatorControlSystem.assignRequests_error_split (l : List (Int × Int)) :
    ∀ (s s' : ElevatorControlSystem),
      ElevatorControlSystem.assignRequests s l = (true, s') →
      ∃ pre post, l = pre ++ post ∧
        ElevatorControlSystem.assignRequests s pre = (false, s') := by
  induction l with
  | nil =>
    intro s s' h
    rw [ElevatorControlSystem.assignRequests] at h
    exact absurd (congrArg Prod.fst h) (by simp)
  | cons r rest ih =>
    intro s s' h
    rw [ElevatorControlSystem.assignRequests] at h
    rcases ha : ElevatorControlSystem.assignOne s r with _ | s1
    · rw [ha] at h
      have hs : s = s' := congrArg Prod.snd h
      exact ⟨[], r :: rest, rfl, by rw [← hs]; rfl⟩
    · rw [ha] at h
      rcases ih s1 s' h with ⟨pre, post, hsplit, hpre⟩
      refine ⟨r :: pre, post, by rw [hsplit]; rfl, ?_⟩
      rw [ElevatorControlSystem.assignRequests, ha]
      exact hpre

/-- C6 amended: step() is not atomic, but a failing step() has a
precise partial-mutation shape: the pending queue is unchanged
(the clear never runs), and the elevators reflect exactly the
successful assignment of some prefix of the queue; mutations made for
requests before the failing one remain visible to the caller. -/
theorem C6_step_failure_visible (s : ElevatorControlSystem)
    (h : (ElevatorControlSystem.step s).1 = true) :
    (ElevatorControlSystem.step s).2.pickup_requests = s.pickup_requests ∧
    ∃ pre post, s.pickup_requests = pre ++ post ∧
      ElevatorControlSystem.assignRequests s pre =
        (false, (ElevatorControlSystem.step s).2) := by
  rcases har : ElevatorControlSystem.assignRequests s s.pickup_requests with ⟨b, s1⟩
  cases b
  · exfalso
    unfold ElevatorControlSystem.step at h
    rw [har] at h
    simp at h
  · have hstep : ElevatorControlSystem.step s = (true, s1) := by
      unfold ElevatorControlSystem.step
      rw [har]
    rw [hstep]
    constructor
    · have := ElevatorControlSystem.assignRequests_queue s.pickup_requests s
      rw [har] at this
      exact this
    · exact ElevatorControlSystem.assignRequests_error_split s.pickup_requests s s1 har

/-- C6 witness: the concrete failing step of the counterexample state
exhibits the partial-mutation shape. -/
theorem C6_step_failure_visible_witness :
    (ElevatorControlSystem.step
      (ElevatorControlSystem.pickup
        (ElevatorControlSystem.pickup (ElevatorControlSystem.init 1) 5 1) 7 1)).1 = true ∧
    ((ElevatorControlSystem.step
       (ElevatorControlSystem.pickup
         (ElevatorControlSystem.pickup (ElevatorControlSystem.init 1) 5 1) 7 1)).2.pickup_requests =
       (ElevatorControlSystem.pickup
         (ElevatorControlSystem.pickup (ElevatorControlSystem.init 1) 5 1) 7 1).pickup_requests ∧
     ∃ pre post,
       (ElevatorControlSystem.pickup
         (ElevatorControlSystem.pickup (ElevatorControlSystem.init 1) 5 1) 7 1).pickup_requests =
         pre ++ post ∧
       ElevatorControlSystem.assignRequests
         (ElevatorControlSystem.pickup
           (ElevatorControlSystem.pickup (ElevatorControlSystem.init 1) 5 1) 7 1) pre =
         (false,
          (ElevatorControlSystem.step
            (ElevatorControlSystem.pickup
              (ElevatorControlSystem.pickup (ElevatorControlSystem.init 1) 5 1) 7 1)).2)) :=
  ⟨by decide, C6_step_failure_visible _ (by decide)⟩

/-! ### C7 (amended): successful pickup-then-step -/

theorem ElevatorControlSystem.motionOne_goal_floor (e : Elevator) :
    (ElevatorControlSystem.motionOne e).goal_floor = e.goal_floor := by
  unfold ElevatorControlSystem.motionOne
  by_cases h : e.current_floor = e.goal_floor
  · simp only [if_pos h]
    split
    · split
      · rfl
      · rfl
    · rfl
  · simp only [if_neg h]
    split
    · split
      · rfl
      · rfl
    · rfl

theorem ElevatorControlSystem.assignRequests_last_goal (l : List (Int × Int)) :
    ∀ (s : ElevatorControlSystem) (f d : Int) (s' : ElevatorControlSystem),
      ElevatorControlSystem.assignRequests s (l ++ [(f, d)]) = (false, s') →
      ∃ e ∈ s'.elevators, e.goal_floor = f ∧ e.is_fulfilling_request = true := by
  induction l with
  | nil =>
    intro s f d s' h
    rw [List.nil_append, ElevatorControlSystem.assignRequests] at h
    rcases ha : ElevatorControlSystem.assignOne s (f, d) with _ | s1
    · rw [ha] at h
      exact absurd (congrArg Prod.fst h) (by simp)
    · rw [ha] at h
      have hs : s1 = s' := congrArg Prod.snd h
      rw [← hs]
      exact ElevatorControlSystem.assignOne_goal s (f, d) s1 ha
  | cons r rest ih =>
    intro s f d s' h
    rw [List.cons_append, ElevatorControlSystem.assignRequests] at h
    rcases ha : ElevatorControlSystem.assignOne s r with _ | s1
    · rw [ha] at h
      exact absurd (congrArg Prod.fst h) (by simp)
    · rw [ha] at h
      exact ih s1 f d s' h

/-- C7 amended: a pickup(f, d) followed immediately by a step() that
returns without error clears the pending queue and leaves at least one
elevator with goal_floor = f.  (The unamended claim fails when the
step's assignment phase raises; see the counterexample.) -/
theorem C7_pickup_step_success (s : ElevatorControlSystem) (f d : Int) (hd : d ≠ 0)
    (hok : (ElevatorControlSystem.step (ElevatorControlSystem.pickup s f d)).1 = false) :
    (ElevatorControlSystem.step (ElevatorControlSystem.pickup s f d)).2.pickup_requests
      = [] ∧
    ∃ e ∈ (ElevatorControlSystem.step
      (ElevatorControlSystem.pickup s f d)).2.elevators, e.goal_floor = f := by
  rcases har : ElevatorControlSystem.assignRequests (ElevatorControlSystem.pickup s f d)
    (ElevatorControlSystem.pickup s f d).pickup_requests with ⟨b, s1⟩
  cases b
  · have hstep : ElevatorControlSystem.step (ElevatorControlSystem.pickup s f d) =
        (false, { elevators := s1.elevators.map ElevatorControlSystem.motionOne,
                  pickup_requests := [] }) := by
      unfold ElevatorControlSystem.step
      rw [har]
    rw [hstep]
    refine ⟨rfl, ?_⟩
    have hqueue : (ElevatorControlSystem.pickup s f d).pickup_requests =
        s.pickup_requests ++ [(f, d)] := rfl
    rw [hqueue] at har
    rcases ElevatorControlSystem.assignRequests_last_goal s.pickup_requests
      (ElevatorControlSystem.pickup s f d) f d s1 har with ⟨e, he, hgoal, _⟩
    exact ⟨ElevatorControlSystem.motionOne e, List.mem_map.2 ⟨e, he, rfl⟩,
      by rw [ElevatorControlSystem.motionOne_goal_floor, hgoal]⟩
  · exfalso
    unfold ElevatorControlSystem.step at hok
    rw [har] at hok
    simp at hok

/-- C7 witness: on a fresh one-elevator system, pickup(5, 1) then
step() succeeds, the queue is cleared and elevator 0's goal is 5. -/
theorem C7_pickup_step_success_witness :
    ((1 : Int) ≠ 0) ∧
    ((ElevatorControlSystem.step
      (ElevatorControlSystem.pickup (ElevatorControlSystem.init 1) 5 1)).1 = false) ∧
    ((ElevatorControlSystem.step
      (ElevatorControlSystem.pickup (ElevatorControlSystem.init 1) 5 1)).2.pickup_requests
        = [] ∧
     ∃ e ∈ (ElevatorControlSystem.step
      (ElevatorControlSystem.pickup (ElevatorControlSystem.init 1) 5 1)).2.elevators,
        e.goal_floor = 5) :=
  ⟨by decide, by decide,
   C7_pickup_step_success (ElevatorControlSystem.init 1) 5 1 (by decide) (by decide)⟩

/-! ### C8 (amended): state at the moment of assignment -/

/-- C8 amended: when the assignment phase marks an elevator busy for a
request whose pickup floor differs from that elevator's current floor,
current_floor differs from goal_floor at the moment of assignment.  (When
the pickup floor equals the elevator's floor, the elevator is marked
busy while already standing at its goal; see the counterexample.) -/
theorem C8_assignment_busy_goal (s : ElevatorControlSystem)
    (pickup_request : Int × Int) (s' : ElevatorControlSystem)
    (h : ElevatorControlSystem.assignOne s pickup_request = some s')
    (i : Nat) (e e' : Elevator)
    (he : s.elevators.get? i = some e) (he' : s'.elevators.get? i = some e')
    (hnew : e.is_fulfilling_request = false)
    (hbusy : e'.is_fulfilling_request = true)
    (hne : pickup_request.1 ≠ e.current_floor) :
    e'.current_floor ≠ e'.goal_floor := by
  rcases ElevatorControlSystem.assignOne_some s pickup_request s' h with ⟨j, hj, rfl⟩
  dsimp only at he'
  by_cases hij : j = i
  · subst hij
    rw [List.get?_set_eq_of_lt _ hj] at he'
    have he2 : e = s.elevators.get ⟨j, hj⟩ := by
      rw [List.get?_eq_get hj] at he
      exact (Option.some.inj he).symm
    have he'2 : e' = ⟨(s.elevators.get ⟨j, hj⟩).elevator_id,
        (s.elevators.get ⟨j, hj⟩).current_floor, pickup_request.1, true⟩ :=
      (Option.some.inj he').symm
    rw [he'2]
    simp only
    rw [← he2]
    exact fun hc => hne hc.symm
  · rw [List.get?_set_ne _ _ hij] at he'
    rw [he] at he'
    have : e = e' := Option.some.inj he'
    rw [← this] at hbusy
    rw [hnew] at hbusy
    exact absurd hbusy (by simp)

/-- C8 witness: one elevator at floor 1, request at floor 5: the
assignment marks it busy and its current floor 1 differs from its new
goal 5. -/
theorem C8_assignment_busy_goal_witness :
    ElevatorControlSystem.assignOne (ElevatorControlSystem.init 1) (5, 1) =
      some ⟨[⟨0, 1, 5, true⟩], []⟩ ∧
    ((1 : Int) ≠ 5) :=
  ⟨by decide,
   C8_assignment_busy_goal (ElevatorControlSystem.init 1) (5, 1) ⟨[⟨0, 1, 5, true⟩], []⟩
     (by decide) 0 (Elevator.init 0) ⟨0, 1, 5, true⟩ rfl rfl rfl rfl (by decide)⟩

/-! ### C9 (amended): convergence of the motion phase -/

theorem ElevatorControlSystem.motionOne_idle_fixed (i : Nat) (g : Int) :
    ElevatorControlSystem.motionOne ⟨i, g, g, false⟩ = ⟨i, g, g, false⟩ := by
  unfold ElevatorControlSystem.motionOne
  simp

theorem ElevatorControlSystem.motionOne_arrival (i : Nat) (g : Int) :
    ElevatorControlSystem.motionOne ⟨i, g, g, true⟩ = ⟨i, g, g, false⟩ := by
  unfold ElevatorControlSystem.motionOne
  simp

theorem ElevatorControlSystem.motionOne_iterate_busy (D : Nat) :
    ∀ e : Elevator, e.is_fulfilling_request = true →
      (e.goal_floor - e.current_floor).natAbs = D →
      ElevatorControlSystem.motionOne^[D] e =
        ⟨e.elevator_id, e.goal_floor, e.goal_floor, true⟩ := by
  induction D with
  | zero =>
    intro e hb hD
    have hce : e.current_floor = e.goal_floor := by omega
    obtain ⟨i, c, g, b⟩ := e
    simp only at hce hb
    rw [Function.iterate_zero_apply]
    rw [hce, hb]
  | succ n ih =>
    intro e hb hD
    have hne : e.current_floor ≠ e.goal_floor := by
      intro hc
      rw [hc] at hD
      simp at hD
    rw [Function.iterate_succ_apply]
    have hme : ElevatorControlSystem.motionOne e =
        ⟨e.elevator_id,
         (if e.goal_floor - e.current_floor < 0 then e.current_floor - 1
          else e.current_floor + 1),
         e.goal_floor, true⟩ := by
      unfold ElevatorControlSystem.motionOne
      rw [if_neg hne]
      simp only [hb, if_true]
      unfold Elevator.get_direction
      split
      · rfl
      · rfl
    rw [hme]
    have hD' : (e.goal_floor - (if e.goal_floor - e.current_floor < 0
        then e.current_floor - 1 else e.current_floor + 1)).natAbs = n := by
      split <;> omega
    exact ih _ rfl hD'

theorem ElevatorControlSystem.motionOne_iterate_done (e : Elevator)
    (hb : e.is_fulfilling_request = true) (k : Nat)
    (hk : (e.goal_floor - e.current_floor).natAbs + 1 ≤ k) :
    ElevatorControlSystem.motionOne^[k] e =
      ⟨e.elevator_id, e.goal_floor, e.goal_floor, false⟩ := by
  obtain ⟨m, hm⟩ : ∃ m, k = m + ((e.goal_floor - e.current_floor).natAbs + 1) :=
    ⟨k - ((e.goal_floor - e.current_floor).natAbs + 1), by omega⟩
  subst hm
  rw [Function.iterate_add_apply, Function.iterate_succ_apply',
    ElevatorControlSystem.motionOne_iterate_busy _ e hb rfl,
    ElevatorControlSystem.motionOne_arrival]
  exact Function.iterate_fixed
    (ElevatorControlSystem.motionOne_idle_fixed e.elevator_id e.goal_floor) m

theorem ElevatorControlSystem.motionOne_iterate_current (e : Elevator)
    (hb : e.is_fulfilling_request = true) (k : Nat)
    (hk : (e.goal_floor - e.current_floor).natAbs ≤ k) :
    (ElevatorControlSystem.motionOne^[k] e).current_floor = e.goal_floor := by
  rcases Nat.lt_or_ge k ((e.goal_floor - e.current_floor).natAbs + 1) with h | h
  · have hkD : k = (e.goal_floor - e.current_floor).natAbs := by omega
    rw [hkD, ElevatorControlSystem.motionOne_iterate_busy _ e hb rfl]
  · rw [ElevatorControlSystem.motionOne_iterate_done e hb k h]

theorem ElevatorControlSystem.step_empty_queue (s : ElevatorControlSystem)
    (hq : s.pickup_requests = []) :
    ElevatorControlSystem.step s =
      (false, ⟨s.elevators.map ElevatorControlSystem.motionOne, []⟩) := by
  unfold ElevatorControlSystem.step
  rw [hq]
  rfl

theorem ElevatorControlSystem.stepIter_empty_queue (s : ElevatorControlSystem)
    (hq : s.pickup_requests = []) (k : Nat) :
    ElevatorControlSystem.stepIter s k =
      ⟨s.elevators.map (ElevatorControlSystem.motionOne^[k]), []⟩ := by
  induction k with
  | zero =>
    obtain ⟨els, q⟩ := s
    simp only at hq
    subst hq
    simp [ElevatorControlSystem.stepIter]
  | succ n ih =>
    rw [ElevatorControlSystem.stepIter, ih,
      ElevatorControlSystem.step_empty_queue _ rfl]
    simp only [List.map_map]
    rw [Function.iterate_succ']

/-- C9 amended: from any state whose pending queue is empty, a busy
elevator at floor c with goal g reaches current_floor = g within
|g - c| iterated step() calls, and from |g - c| + 1 calls onwards its
state is the constant (id, g, g, not busy) — so busy is cleared and
every further step() leaves it unchanged.  (The unamended "from any
state" fails when pending requests make every step() raise before the
motion phase; see the counterexample.) -/
theorem C9_motion_convergence (s : ElevatorControlSystem)
    (hq : s.pickup_requests = []) (i : Nat) (e : Elevator)
    (he : s.elevators.get? i = some e)
    (hb : e.is_fulfilling_request = true) (k : Nat) :
    ((e.goal_floor - e.current_floor).natAbs ≤ k →
      ∃ e', (ElevatorControlSystem.stepIter s k).elevators.get? i = some e' ∧
        e'.current_floor = e.goal_floor) ∧
    ((e.goal_floor - e.current_floor).natAbs + 1 ≤ k →
      (ElevatorControlSystem.stepIter s k).elevators.get? i =
        some ⟨e.elevator_id, e.goal_floor, e.goal_floor, false⟩) := by
  have hget : (ElevatorControlSystem.stepIter s k).elevators.get? i =
      some (ElevatorControlSystem.motionOne^[k] e) := by
    rw [ElevatorControlSystem.stepIter_empty_queue s hq k]
    show (s.elevators.map (ElevatorControlSystem.motionOne^[k])).get? i = _
    rw [List.get?_map, he]
    rfl
  constructor
  · intro hk
    exact ⟨_, hget, ElevatorControlSystem.motionOne_iterate_current e hb k hk⟩
  · intro hk
    rw [hget, ElevatorControlSystem.motionOne_iterate_done e hb k hk]

/-- C9 witness: one busy elevator at floor 1 with goal 3 and an empty
queue: after 3 iterated steps it is exactly (0, 3, 3, not busy). -/
theorem C9_motion_convergence_witness :
    (((3 : Int) - 1).natAbs + 1 ≤ 3) ∧
    (ElevatorControlSystem.stepIter ⟨[⟨0, 1, 3, true⟩], []⟩ 3).elevators.get? 0 =
      some ⟨0, 3, 3, false⟩ :=
  ⟨by decide,
   (C9_motion_convergence ⟨[⟨0, 1, 3, true⟩], []⟩ rfl 0 ⟨0, 1, 3, true⟩ rfl rfl 3).2
     (by decide)⟩
